import Mathlib

/-!
Verification development for the database storage adapter of mcp-remote
(`mcp-auth-config-database` module, its `database-prisma-client` companion, and
the `mcp-auth-config-wrapper` switch).

Strings of the JavaScript source are modelled as `List Char` (`Str`), byte
buffers as `List Nat` (`Bytes`).  External collaborators (the JSON codec of the
runtime, the Prisma record store, the file-based fallback module) are modelled
as explicit parameters; the record store is a value of type `DB` holding the
three logical tables.  The node `crypto` primitives are not part of this
repository: per the specification's Authenticated Cipher contract they are
modelled as an ideal collision-free hash (`sha256`) and an ideal AEAD whose
authentication tag binds key, IV and ciphertext (`gcmTag`); the adapter-level
code around them (key derivation input, the colon-delimited hex serialization,
field splitting, the tag check on decrypt) is translated from the source.

A central fact of the source: the identifier `prisma` is bound by
`const prisma = getPrismaClient()` only inside the `tokens.json` branch of
`DatabaseStorage.readJson`.  Every other occurrence of `prisma` (the other two
`readJson` branches, all of `writeJson`, all of `delete`) refers to an unbound
identifier, so evaluating it throws a `ReferenceError` before any record-store
operation runs.  Those occurrences are embedded as `Except.error .referenceError`
with a comment at each site.
-/

set_option autoImplicit false

namespace McpStorage

/-- JavaScript strings, modelled as lists of characters. -/
abbrev Str := List Char

/-- Byte buffers (node `Buffer`), modelled at codepoint granularity: each entry
is one codepoint of the underlying text.  Hex serialization below uses six hex
digits per entry accordingly. -/
abbrev Bytes := List Nat

/-- Model of JavaScript `String.prototype.split` with a one-character
separator: always returns at least one (possibly empty) field. -/
def splitOnChar (sep : Char) : Str → List Str
  | [] => [[]]
  | c :: cs =>
    match splitOnChar sep cs with
    | [] => [[]]
    | p :: ps => if c = sep then [] :: p :: ps else (c :: p) :: ps

/-- Hex digit character for a value below 16 (lowercase, as node emits). -/
def hexChar (n : Nat) : Char :=
  if n < 10 then Char.ofNat (48 + n) else Char.ofNat (87 + n)

/-- Recognizer for lowercase hex digit characters. -/
def isHexDigit (c : Char) : Bool :=
  (48 ≤ c.toNat && c.toNat ≤ 57) || (97 ≤ c.toNat && c.toNat ≤ 102)

/-- Numeric value of a hex digit character. -/
def hexCharVal (c : Char) : Nat :=
  if c.toNat ≤ 57 then c.toNat - 48 else c.toNat - 87

/-- Hex rendering of one buffer entry: six big-endian hex digits (entries are
codepoints, all below 16^6). -/
def byteHex (n : Nat) : Str :=
  [hexChar (n / 16 ^ 5 % 16), hexChar (n / 16 ^ 4 % 16), hexChar (n / 16 ^ 3 % 16),
   hexChar (n / 16 ^ 2 % 16), hexChar (n / 16 ^ 1 % 16), hexChar (n % 16)]

/-- Hex rendering of a whole buffer (`Buffer.prototype.toString('hex')` at the
model's granularity). -/
def bytesToHex : Bytes → Str
  | [] => []
  | b :: bs => byteHex b ++ bytesToHex bs

/-- Lenient hex parsing (`Buffer.from(s, 'hex')` at the model's granularity):
decode six-digit groups while they are well formed, stop at the first malformed
group.  Node's hex decoder is lenient in the same way and never throws on a
string argument. -/
def hexDecode : Str → Bytes
  | c1 :: c2 :: c3 :: c4 :: c5 :: c6 :: rest =>
    if isHexDigit c1 && isHexDigit c2 && isHexDigit c3 &&
       isHexDigit c4 && isHexDigit c5 && isHexDigit c6 then
      (((((hexCharVal c1 * 16 + hexCharVal c2) * 16 + hexCharVal c3) * 16 +
          hexCharVal c4) * 16 + hexCharVal c5) * 16 + hexCharVal c6) :: hexDecode rest
    else []
  | _ => []

/-- Codepoints of a string (the model's `Buffer.from(s, 'utf8')`). -/
def strBytes (s : Str) : Bytes := s.map Char.toNat

/-- Text decoding of a buffer (the model's `buf.toString('utf8')`). -/
def bytesToStr (bs : Bytes) : Str := bs.map Char.ofNat

/-- Errors a storage operation can surface (JavaScript exceptions / rejected
promises of the source). -/
inductive Err where
  /-- ReferenceError raised by evaluating the unbound identifier `prisma`. -/
  | referenceError
  /-- TypeError raised e.g. by passing `undefined` where a string is required. -/
  | typeError
  /-- AEAD authentication failure on `decipher.final()`. -/
  | integrityError
  /-- Missing `DATABASE_URL` in `getPrismaClient`. -/
  | configError
  /-- Prisma "record to delete does not exist" failure, `code === 'P2025'`. -/
  | prismaNotFound
  /-- Any other record-store failure, with its `code` property. -/
  | backendFail (code : Str)
  /-- A thrown `new Error(message)`. -/
  | thrown (message : Str)
  /-- Rejection of `schema.parseAsync`. -/
  | validationFail
deriving DecidableEq

/-- Prisma error code for "record to delete does not exist". -/
def p2025 : Str := ("P2025").data

/-- JavaScript `error.code` property of a model error (absent on most). -/
def Err.code : Err → Option Str
  | .prismaNotFound => some p2025
  | .backendFail c => some c
  | _ => none

/-- Default of the `ENCRYPTION_KEY` environment variable in the source. -/
def defaultEncryptionKey : Str := ("default-dev-key-change-in-production").data

/-- Model of `crypto.createHash('sha256').update(input).digest()`: an ideal
collision-free digest (length-prefixed codepoints), standing in for SHA-256
which is external to this repository.  Injectivity models collision
resistance. -/
def sha256 (input : Str) : Bytes := input.length :: strBytes input

/-- Length-prefixed pairing of buffers; injective in both components. -/
def pair2 (a b : Bytes) : Bytes := a.length :: (a ++ b)

/-- Model of the AES-256-GCM authentication tag: binds key, IV and ciphertext.
An ideal AEAD is assumed (per the specification's Authenticated Cipher
contract): the tag matches exactly when key, IV and ciphertext all match. -/
def gcmTag (key iv ct : Bytes) : Bytes := pair2 key (pair2 iv ct)

/-- Model of the GCM keystream application.  Confidentiality is not the subject
of any claim, so the ciphertext body is the plaintext's codepoints; integrity
is carried entirely by `gcmTag`. -/
def gcmCipherText (pt : Bytes) : Bytes := pt

/-- Embedding of `encrypt(text, userId)` (lines 18-32).  The per-call random
IV (`crypto.randomBytes(16)`) and the module-level `ENCRYPTION_KEY` are
explicit parameters.  Output: `iv.toString('hex') + ':' + authTag.toString('hex')
+ ':' + encrypted`. -/
def encrypt (secret : Str) (text userId : Str) (iv : Bytes) : Str :=
  let key := sha256 (secret ++ userId)
  let ct := gcmCipherText (strBytes text)
  let authTag := gcmTag key iv ct
  bytesToHex iv ++ ':' :: bytesToHex authTag ++ ':' :: bytesToHex ct

/-- The three serialized segments produced by `encrypt`, for stating tamper
properties segment by segment. -/
def encParts (secret : Str) (text userId : Str) (iv : Bytes) : Str × Str × Str :=
  let key := sha256 (secret ++ userId)
  let ct := gcmCipherText (strBytes text)
  (bytesToHex iv, bytesToHex (gcmTag key iv ct), bytesToHex ct)

/-- Embedding of `decrypt(encryptedData, userId)` (lines 37-54).
`encryptedData.split(':')` yields the fields; with fewer than three fields the
source throws a TypeError (`Buffer.from(undefined, 'hex')` for a missing
`parts[1]`, `decipher.update(undefined, ...)` for a missing `parts[2]`); with
three or more, fields beyond the third are ignored, exactly as in the source
(`parts[0]`, `parts[1]`, `parts[2]`).  The tag check happens at
`decipher.final()`. -/
def decrypt (secret : Str) (encryptedData userId : Str) : Except Err Str :=
  match splitOnChar ':' encryptedData with
  | p0 :: p1 :: p2 :: _ =>
    let iv := hexDecode p0
    let authTag := hexDecode p1
    let key := sha256 (secret ++ userId)
    let ct := hexDecode p2
    if gcmTag key iv ct = authTag then .ok (bytesToStr ct)
    else .error .integrityError
  | _ => .error .typeError

/-- JSON values (`any` data of the source after `JSON.parse`).  Numbers are
modelled as integers; no claim involves non-integral numbers. -/
inductive Json where
  | null
  | bool (b : Bool)
  | num (n : Int)
  | str (s : Str)
  | arr (elems : List Json)
  | obj (fields : List (Str × Json))

/-- Comparison against the JavaScript `null` literal, as in `cached !== null`. -/
def Json.isNull : Json → Bool
  | .null => true
  | _ => false

/-- JavaScript truthiness test on a fetched value (`if (!data) ...`).  `none`
models `undefined`; the falsy JSON values are `null`, `false`, `0` and the
empty string. -/
def jsFalsy : Option Json → Bool
  | none => true
  | some .null => true
  | some (.bool b) => !b
  | some (.num n) => n == 0
  | some (.str s) => s.isEmpty
  | some (.arr _) => false
  | some (.obj _) => false

/-- Module-level `CACHE_TTL = 5000` (milliseconds). -/
def CACHE_TTL : Nat := 5000

/-- One value of the module-level cache `Map`. -/
structure CacheEntry where
  data : Json
  timestamp : Nat

/-- The module-level `cache : Map<string, {data, timestamp}>`, modelled as an
association list with `Map` lookup semantics. -/
abbrev Cache := List (Str × CacheEntry)

/-- Map lookup (`cache.get(key)`). -/
def cacheGet (c : Cache) (k : Str) : Option CacheEntry := c.lookup k

/-- Map removal (`cache.delete(key)`). -/
def cacheDelete (c : Cache) (k : Str) : Cache :=
  c.filter (fun kv => !(kv.1 == k))

/-- Map insertion (`cache.set(key, e)`), up to lookup equivalence. -/
def cacheSet (c : Cache) (k : Str) (e : CacheEntry) : Cache :=
  (k, e) :: cacheDelete c k

/-- Embedding of `DatabaseStorage.getCacheKey` (lines 77-79):
the template string `userId:connectionId:serverUrlHash:filename`. -/
def getCacheKey (userId connectionId serverUrlHash filename : Str) : Str :=
  userId ++ ':' :: connectionId ++ ':' :: serverUrlHash ++ ':' :: filename

/-- Embedding of `DatabaseStorage.getFromCache` (lines 84-91).  `Date.now()` is
the explicit `now` parameter.  Returns the JavaScript result (with `Json.null`
standing for the `null` miss sentinel, which the source conflates with a cached
`null` value) together with the updated cache: a fresh hit leaves the cache
untouched, every other path runs `cache.delete(key)`. -/
def getFromCache (c : Cache) (now : Nat) (key : Str) : Json × Cache :=
  match cacheGet c key with
  | some e =>
    if now - e.timestamp < CACHE_TTL then (e.data, c)
    else (Json.null, cacheDelete c key)
  | none => (Json.null, cacheDelete c key)

/-- Embedding of `DatabaseStorage.setCache` (lines 96-98). -/
def setCache (c : Cache) (now : Nat) (key : Str) (data : Json) : Cache :=
  cacheSet c key ⟨data, now⟩

/-- Row of the `mCPRemoteToken` table. -/
structure TokenRecord where
  userId : Str
  connectionId : Str
  serverHash : Str
  serverUrl : Str
  tokenData : Str
  tokenType : Str
deriving DecidableEq

/-- Row of the `mCPRemoteClientInfo` table. -/
structure ClientInfoRecord where
  serverUrl : Str
  clientData : Str
deriving DecidableEq

/-- Row of the generic `mCPRemoteStorage` table. -/
structure StorageRecord where
  userId : Str
  connectionId : Str
  key : Str
  value : Str
deriving DecidableEq

/-- The record store: the three logical tables behind the Prisma client. -/
structure DB where
  tokens : List TokenRecord
  clientInfos : List ClientInfoRecord
  genericRecords : List StorageRecord
deriving DecidableEq

/-- Lookup on the `userId_connectionId_serverHash` unique key of
`mCPRemoteToken.findUnique`. -/
def DB.findToken (db : DB) (u c h : Str) : Option TokenRecord :=
  db.tokens.find? (fun r => r.userId == u && r.connectionId == c && r.serverHash == h)

/-- Lookup on the `serverUrl` unique key of `mCPRemoteClientInfo.findUnique`. -/
def DB.findClientInfo (db : DB) (serverUrl : Str) : Option ClientInfoRecord :=
  db.clientInfos.find? (fun r => r.serverUrl == serverUrl)

/-- Lookup on the `userId_connectionId_key` unique key of
`mCPRemoteStorage.findUnique`. -/
def DB.findGeneric (db : DB) (u c k : Str) : Option StorageRecord :=
  db.genericRecords.find? (fun r => r.userId == u && r.connectionId == c && r.key == k)

/-- Record store with no rows. -/
def emptyDB : DB := ⟨[], [], []⟩

/-- External collaborators and module-level configuration: the shared
encryption secret, `DATABASE_URL`, and the runtime JSON codec (external to the
adapter, hence arbitrary functions). -/
structure Env where
  secret : Str
  databaseUrl : Option Str
  jsonParse : Str → Except Err Json
  jsonStringify : Json → Str

/-- Embedding of `getPrismaClient` (lines 444-466 of the prisma-client
module): throws when `DATABASE_URL` is absent, otherwise yields the (memoized)
client handle.  The handle itself carries no data in the model; table access
goes through the `DB` value. -/
def getPrismaClient (env : Env) : Except Err Unit :=
  match env.databaseUrl with
  | none => .error .configError
  | some _ => .ok ()

/-- Literal `'tokens.json'`. -/
def tokensJson : Str := ("tokens.json").data

/-- Literal `'client_info.json'`. -/
def clientInfoJson : Str := ("client_info.json").data

/-- Result of a `readJson` call: the settled promise, the cache after the
call, and a ghost flag recording whether any record-store query actually ran
(used to state "backend round trip" properties; it is not part of the
source's observable result). -/
structure ReadOut where
  result : Except Err (Option Json)
  cache : Cache
  dbTouched : Bool

/-- The `try` body of `DatabaseStorage.readJson` (lines 112-164).  In the
`tokens.json` branch `const prisma = getPrismaClient()` binds the client; in
the `client_info.json` and generic branches the identifier `prisma` is unbound
(that `const` is block-scoped to the first branch), so evaluating
`prisma.mCPRemoteClientInfo.findUnique(...)` / `prisma.mCPRemoteStorage.findUnique(...)`
throws a ReferenceError before any query runs. -/
def readJsonTry (env : Env) (db : DB) (userId connectionId serverUrlHash filename : Str)
    (cache : Cache) (now : Nat) (cacheKey : Str) : Except Err (Option Json) × Cache × Bool :=
  if filename = tokensJson then
    match getPrismaClient env with
    | .error e => (.error e, cache, false)
    | .ok _ =>
      match db.findToken userId connectionId serverUrlHash with
      | none => (.ok none, cache, true)
      | some record =>
        match decrypt env.secret record.tokenData userId with
        | .error e => (.error e, cache, true)
        | .ok decrypted =>
          match env.jsonParse decrypted with
          | .error e => (.error e, cache, true)
          | .ok data => (.ok (some data), setCache cache now cacheKey data, true)
  else if filename = clientInfoJson then
    -- `prisma` is unbound here: ReferenceError before the findUnique runs
    (.error .referenceError, cache, false)
  else
    -- generic branch: `prisma` is unbound here as well
    (.error .referenceError, cache, false)

/-- Embedding of `DatabaseStorage.readJson` (lines 103-169).  The cache check
precedes the `try`; the `catch` logs and returns `undefined` (`.ok none`). -/
def readJson (env : Env) (db : DB) (userId connectionId serverUrlHash filename : Str)
    (cache : Cache) (now : Nat) : ReadOut :=
  let cacheKey := getCacheKey userId connectionId serverUrlHash filename
  let lookup := getFromCache cache now cacheKey
  if lookup.1.isNull then
    let t := readJsonTry env db userId connectionId serverUrlHash filename lookup.2 now cacheKey
    match t.1 with
    | .ok v => ⟨.ok v, t.2.1, t.2.2⟩
    | .error _ => ⟨.ok none, t.2.1, t.2.2⟩
  else
    ⟨.ok (some lookup.1), lookup.2, false⟩

/-- Embedding of `DatabaseStorage.writeJson` (lines 174-253).  Every branch of
the `try` body evaluates the unbound identifier `prisma` (`prisma.mCPRemoteToken.upsert`,
`prisma.mCPRemoteClientInfo.upsert`, `prisma.mCPRemoteStorage.upsert`), so each
throws a ReferenceError before the upsert — in the `tokens.json` branch after
first computing `encrypt(JSON.stringify(data), this.userId)`.  `setCache` is
never reached; the `catch` logs and rethrows.  The record store is therefore
not even an input. -/
def writeJson (env : Env) (userId connectionId serverUrlHash filename : Str)
    (data : Json) (iv : Bytes) (cache : Cache) : Except Err Unit × Cache :=
  let cacheKey := getCacheKey userId connectionId serverUrlHash filename
  have _ := cacheKey
  let tryResult : Except Err Unit :=
    if filename = tokensJson then
      let encrypted := encrypt env.secret (env.jsonStringify data) userId iv
      -- `await prisma.mCPRemoteToken.upsert({... tokenData: encrypted ...})`:
      -- `prisma` is unbound in writeJson, so this throws
      have _ := encrypted
      .error .referenceError
    else if filename = clientInfoJson then
      .error .referenceError
    else
      .error .referenceError
  match tryResult with
  | .ok _ => (.ok (), cache)
  | .error e => (.error e, cache)

/-- String `'Error reading '` prepended to a filename. -/
def errorReading (filename : Str) : Str := ("Error reading ").data ++ filename

/-- Embedding of `DatabaseStorage.readText` (lines 258-264):
`if (!data || typeof data !== 'string') throw new Error(...)`.  Note `!data` is
true for the empty string as well. -/
def readText (env : Env) (db : DB) (userId connectionId serverUrlHash filename : Str)
    (cache : Cache) (now : Nat) : Except Err Str × Cache × Bool :=
  let o := readJson env db userId connectionId serverUrlHash filename cache now
  match o.result with
  | .error e => (.error e, o.cache, o.dbTouched)
  | .ok data =>
    match data with
    | some (.str s) =>
      if s.isEmpty then (.error (.thrown (errorReading filename)), o.cache, o.dbTouched)
      else (.ok s, o.cache, o.dbTouched)
    | _ => (.error (.thrown (errorReading filename)), o.cache, o.dbTouched)

/-- Embedding of `DatabaseStorage.writeText` (lines 269-271): delegates to
`writeJson` with the string as the value. -/
def writeText (env : Env) (userId connectionId serverUrlHash filename : Str)
    (text : Str) (iv : Bytes) (cache : Cache) : Except Err Unit × Cache :=
  writeJson env userId connectionId serverUrlHash filename (Json.str text) iv cache

/-- Embedding of `DatabaseStorage.delete` (lines 276-319).  The cache entry is
removed first.  Every branch of the `try` body then evaluates the unbound
identifier `prisma` (`prisma.mCPRemoteToken.delete`, `prisma.mCPRemoteClientInfo.delete`,
`prisma.mCPRemoteStorage.delete`) and throws a ReferenceError before any
record-store operation.  The `catch` logs when `error.code !== 'P2025'` and
never rethrows, so the call settles successfully either way and the record
store is returned unchanged. -/
def deleteOp (userId connectionId serverUrlHash filename : Str)
    (db : DB) (cache : Cache) : Except Err Unit × DB × Cache :=
  let cacheKey := getCacheKey userId connectionId serverUrlHash filename
  let cache1 := cacheDelete cache cacheKey
  let tryResult : Except Err Unit :=
    if filename = tokensJson then .error .referenceError
    else if filename = clientInfoJson then .error .referenceError
    else .error .referenceError
  match tryResult with
  | .ok _ => (.ok (), db, cache1)
  | .error e =>
    if e.code = some p2025 then
      -- ignore: the record did not exist
      (.ok (), db, cache1)
    else
      -- logged, but not rethrown
      (.ok (), db, cache1)

/-- Module-level configuration read by the selector: `MCP_STORAGE_TYPE`,
`MCP_USER_ID`, `MCP_CONNECTION_ID` (each possibly unset). -/
structure Config where
  mcpStorageType : Option Str
  mcpUserId : Option Str
  mcpConnectionId : Option Str

/-- Literal `'database'`. -/
def databaseLit : Str := ("database").data

/-- Module-level `DB_MODE = process.env.MCP_STORAGE_TYPE === 'database'`. -/
def dbMode (cfg : Config) : Bool := cfg.mcpStorageType == some databaseLit

/-- JavaScript truthiness of an environment string: unset and empty are both
falsy. -/
def envTruthy : Option Str → Bool
  | none => false
  | some s => !s.isEmpty

/-- The tenant context captured by the `DatabaseStorage` constructor
(lines 68-72). -/
structure DatabaseStorage where
  userId : Str
  connectionId : Str
deriving DecidableEq

/-- Embedding of `getStorage` (lines 328-338) over the module-level mutable
`storageInstance` (line 323), which is threaded explicitly: the pair is the
returned value and the variable's new content. -/
def getStorage (cfg : Config) (storageInstance : Option DatabaseStorage) :
    Option DatabaseStorage × Option DatabaseStorage :=
  if !dbMode cfg || !envTruthy cfg.mcpUserId || !envTruthy cfg.mcpConnectionId then
    (none, storageInstance)
  else
    match storageInstance with
    | some s => (some s, some s)
    | none =>
      let s : DatabaseStorage := ⟨(cfg.mcpUserId).getD [], (cfg.mcpConnectionId).getD []⟩
      (some s, some s)

/-- Which implementation an exported entry point used. -/
inductive Route where
  | database
  | fallback
deriving DecidableEq

/-- The file-based fallback module (`mcp-auth-config`), an external
collaborator: the four same-named functions are arbitrary. -/
structure Fallback where
  readJsonFile : Str → Str → (Json → Except Err Json) → Except Err (Option Json)
  writeJsonFile : Str → Str → Json → Except Err Unit
  readTextFile : Str → Str → Option Str → Except Err Str
  writeTextFile : Str → Str → Str → Except Err Unit

/-- The JavaScript `a || b` default for an optional string argument (an empty
string is falsy and also falls back). -/
def jsOrElse (m : Option Str) (d : Str) : Str :=
  match m with
  | some s => if s.isEmpty then d else s
  | none => d

/-- Embedding of the exported `readJsonFile` (lines 363-382): resolve the
backend; on the database path run `storage.readJson`, return `undefined` for a
falsy value, validate with the caller's schema, and convert any error of the
`try` to `undefined`; otherwise delegate verbatim to the fallback module's
`readJsonFile`. -/
def readJsonFile (env : Env) (fb : Fallback) (cfg : Config)
    (inst : Option DatabaseStorage) (db : DB) (cache : Cache) (now : Nat)
    (serverUrlHash filename : Str) (schema : Json → Except Err Json) :
    Except Err (Option Json) × Cache × Route :=
  match (getStorage cfg inst).1 with
  | some s =>
    let o := readJson env db s.userId s.connectionId serverUrlHash filename cache now
    let tryResult : Except Err (Option Json) :=
      match o.result with
      | .error e => .error e
      | .ok data =>
        if jsFalsy data then .ok none
        else
          match data with
          | none => .ok none
          | some v =>
            match schema v with
            | .error e => .error e
            | .ok result => .ok (some result)
    let final : Except Err (Option Json) :=
      match tryResult with
      | .ok v => .ok v
      | .error _ => .ok none
    (final, o.cache, Route.database)
  | none => (fb.readJsonFile serverUrlHash filename schema, cache, Route.fallback)

/-- Embedding of the exported `writeJsonFile` (lines 387-397): database path
when a storage instance resolves (errors propagate), fallback otherwise. -/
def writeJsonFile (env : Env) (fb : Fallback) (cfg : Config)
    (inst : Option DatabaseStorage) (cache : Cache)
    (serverUrlHash filename : Str) (data : Json) (iv : Bytes) :
    Except Err Unit × Cache × Route :=
  match (getStorage cfg inst).1 with
  | some s =>
    let r := writeJson env s.userId s.connectionId serverUrlHash filename data iv cache
    (r.1, r.2, Route.database)
  | none => (fb.writeJsonFile serverUrlHash filename data, cache, Route.fallback)

/-- Embedding of the exported `readTextFile` (lines 402-415): on the database
path any failure of `storage.readText` is replaced by
`new Error(errorMessage || 'Error reading <filename>')`. -/
def readTextFile (env : Env) (fb : Fallback) (cfg : Config)
    (inst : Option DatabaseStorage) (db : DB) (cache : Cache) (now : Nat)
    (serverUrlHash filename : Str) (errorMessage : Option Str) :
    Except Err Str × Cache × Route :=
  match (getStorage cfg inst).1 with
  | some s =>
    let o := readText env db s.userId s.connectionId serverUrlHash filename cache now
    match o.1 with
    | .ok t => (.ok t, o.2.1, Route.database)
    | .error _ =>
      (.error (.thrown (jsOrElse errorMessage (errorReading filename))), o.2.1, Route.database)
  | none => (fb.readTextFile serverUrlHash filename errorMessage, cache, Route.fallback)

/-- Embedding of the exported `writeTextFile` (lines 420-430). -/
def writeTextFile (env : Env) (fb : Fallback) (cfg : Config)
    (inst : Option DatabaseStorage) (cache : Cache)
    (serverUrlHash filename : Str) (text : Str) (iv : Bytes) :
    Except Err Unit × Cache × Route :=
  match (getStorage cfg inst).1 with
  | some s =>
    let r := writeText env s.userId s.connectionId serverUrlHash filename text iv cache
    (r.1, r.2, Route.database)
  | none => (fb.writeTextFile serverUrlHash filename text, cache, Route.fallback)


/-! Concrete values used by counterexamples and witnesses. -/

/-- Demo tenant id. -/
def uidA : Str := ("u1").data

/-- Demo connection id. -/
def cidA : Str := ("c1").data

/-- Demo server URL hash. -/
def hashA : Str := ("abc").data

/-- A filename that is neither `tokens.json` nor `client_info.json`. -/
def otherFile : Str := ("other.json").data

/-- Demo IV (stands for `crypto.randomBytes(16)`). -/
def demoIv : Bytes := [1, 2]

/-- Demo `DATABASE_URL` value. -/
def demoUrl : Str := ("postgres-url").data

/-- Demo environment: configured database URL, JSON codec that rejects
everything (its behavior is irrelevant to the facts proved with it). -/
def demoEnv : Env := ⟨defaultEncryptionKey, some demoUrl,
  fun _ => .error .typeError, fun _ => ("0").data⟩

/-- Record store holding one client-info row at `hashA`. -/
def demoClientDB : DB := ⟨[], [⟨hashA, ("cd").data⟩], []⟩

/-- Record store holding one token row whose `tokenData` is not a valid
ciphertext serialization. -/
def demoCorruptDB : DB :=
  ⟨[⟨uidA, cidA, hashA, [], ("garbage").data, ("oauth").data⟩], [], []⟩

/-- The JSON text of the empty string. -/
def quoteQuote : Str := ("\"\"").data

/-- Environment whose JSON codec parses the two-quote text to the empty JSON
string, as the runtime JSON parser does at that input. -/
def env9 : Env := ⟨defaultEncryptionKey, some demoUrl,
  fun s => if s = quoteQuote then .ok (Json.str []) else .error .typeError,
  fun _ => []⟩

/-- Record store holding one token row that decrypts (under `uidA`) to the
JSON text of the empty string. -/
def demoDB9 : DB :=
  ⟨[⟨uidA, cidA, hashA, [], encrypt defaultEncryptionKey quoteQuote uidA demoIv,
     ("oauth").data⟩], [], []⟩

/-- Cache holding a JSON `null` cached at time 0 under the tokens address of
tenant `(uidA, cidA)`. -/
def c6cache : Cache := [(getCacheKey uidA cidA hashA tokensJson, ⟨Json.null, 0⟩)]

/-- Cache holding a `true` value cached at time 10 under the tokens address. -/
def c6cacheW : Cache := [(getCacheKey uidA cidA hashA tokensJson, ⟨Json.bool true, 10⟩)]

/-- Cache holding the JSON value `false` cached at time 0 under the
`other.json` address of tenant `(uidA, cidA)`. -/
def c10cache : Cache := [(getCacheKey uidA cidA hashA otherFile, ⟨Json.bool false, 0⟩)]

/-- Configuration selecting the database backend with both ids set. -/
def cfgOn : Config := ⟨some databaseLit, some uidA, some cidA⟩

/-- Configuration with nothing set. -/
def cfgOff : Config := ⟨none, none, none⟩

/-- The storage instance for tenant `(uidA, cidA)`. -/
def instA : DatabaseStorage := ⟨uidA, cidA⟩

/-- A concrete fallback module (its behavior is irrelevant to the facts proved
with it). -/
def demoFallback : Fallback :=
  ⟨fun _ _ _ => .ok none, fun _ _ _ => .ok (), fun _ _ _ => .ok [], fun _ _ _ => .ok ()⟩

/-- Identity schema validator. -/
def demoSchema : Json → Except Err Json := fun v => .ok v

/-- Demo secret for cipher witnesses. -/
def wSecret : Str := ("s").data

/-- Demo tenant a. -/
def wA : Str := ("a").data

/-- Demo tenant b. -/
def wB : Str := ("b").data

/-- Demo plaintext. -/
def wP : Str := ("hi").data

/-- A valid ciphertext with one extra colon-delimited field appended: its
colon-split form has four fields. -/
def c8input : Str := encrypt wSecret wP wA demoIv ++ ':' :: ("zz").data

/-! Helper lemmas about splitting and the hex codec. -/

theorem splitOnChar_ne_nil (sep : Char) (s : Str) : splitOnChar sep s ≠ [] := by
  induction s with
  | nil => simp [splitOnChar]
  | cons c cs ih =>
    simp only [splitOnChar]
    cases h : splitOnChar sep cs with
    | nil => exact absurd h ih
    | cons p ps => by_cases hc : c = sep <;> simp [hc]

theorem splitOnChar_nosep (sep : Char) (a : Str) (ha : ∀ ch ∈ a, ch ≠ sep) :
    splitOnChar sep a = [a] := by
  induction a with
  | nil => rfl
  | cons c cs ih =>
    have hc : c ≠ sep := ha c (by simp)
    have ih2 := ih (fun ch hch => ha ch (by simp [hch]))
    simp only [splitOnChar, ih2]
    simp [hc]

theorem splitOnChar_append (sep : Char) (a r : Str) (ha : ∀ ch ∈ a, ch ≠ sep) :
    splitOnChar sep (a ++ sep :: r) = a :: splitOnChar sep r := by
  induction a with
  | nil =>
    simp only [List.nil_append, splitOnChar]
    cases h : splitOnChar sep r with
    | nil => exact absurd h (splitOnChar_ne_nil sep r)
    | cons p ps => simp
  | cons c cs ih =>
    have hc : c ≠ sep := ha c (by simp)
    have ih2 := ih (fun ch hch => ha ch (by simp [hch]))
    simp only [List.cons_append, splitOnChar, ih2]
    simp [hc]
    rw [ih2]

theorem hexCharVal_hexChar (d : Nat) (hd : d < 16) : hexCharVal (hexChar d) = d := by
  interval_cases d <;> decide

theorem isHexDigit_hexChar (d : Nat) (hd : d < 16) : isHexDigit (hexChar d) = true := by
  interval_cases d <;> decide

theorem hexChar_ne_colon (d : Nat) (hd : d < 16) : hexChar d ≠ ':' := by
  interval_cases d <;> decide

theorem byteHex_mem (n : Nat) : ∀ c ∈ byteHex n, ∃ d, d < 16 ∧ c = hexChar d := by
  intro c hc
  simp only [byteHex, List.mem_cons, List.not_mem_nil, or_false] at hc
  rcases hc with h | h | h | h | h | h <;>
    exact ⟨_, Nat.mod_lt _ (by norm_num), h⟩

theorem bytesToHex_ne_colon (bs : Bytes) : ∀ c ∈ bytesToHex bs, c ≠ ':' := by
  induction bs with
  | nil => intro c hc; simp [bytesToHex] at hc
  | cons b bs ih =>
    intro c hc
    simp only [bytesToHex, List.mem_append] at hc
    rcases hc with hc | hc
    · obtain ⟨d, hd, rfl⟩ := byteHex_mem b c hc
      exact hexChar_ne_colon d hd
    · exact ih c hc

theorem hexDecode_byteHex (n : Nat) (hn : n < 16 ^ 6) (rest : Str) :
    hexDecode (byteHex n ++ rest) = n :: hexDecode rest := by
  have h5 : n / 16 ^ 5 % 16 < 16 := Nat.mod_lt _ (by norm_num)
  have h4 : n / 16 ^ 4 % 16 < 16 := Nat.mod_lt _ (by norm_num)
  have h3 : n / 16 ^ 3 % 16 < 16 := Nat.mod_lt _ (by norm_num)
  have h2 : n / 16 ^ 2 % 16 < 16 := Nat.mod_lt _ (by norm_num)
  have h1 : n / 16 ^ 1 % 16 < 16 := Nat.mod_lt _ (by norm_num)
  have h0 : n % 16 < 16 := Nat.mod_lt _ (by norm_num)
  simp only [byteHex, List.cons_append, List.nil_append, hexDecode,
    isHexDigit_hexChar _ h5, isHexDigit_hexChar _ h4, isHexDigit_hexChar _ h3,
    isHexDigit_hexChar _ h2, isHexDigit_hexChar _ h1, isHexDigit_hexChar _ h0,
    hexCharVal_hexChar _ h5, hexCharVal_hexChar _ h4, hexCharVal_hexChar _ h3,
    hexCharVal_hexChar _ h2, hexCharVal_hexChar _ h1, hexCharVal_hexChar _ h0,
    Bool.and_self, Bool.and_true, Bool.true_and, if_true]
  have e5 : (16 : Nat) ^ 5 = 1048576 := by norm_num
  have e4 : (16 : Nat) ^ 4 = 65536 := by norm_num
  have e3 : (16 : Nat) ^ 3 = 4096 := by norm_num
  have e2 : (16 : Nat) ^ 2 = 256 := by norm_num
  have e1 : (16 : Nat) ^ 1 = 16 := by norm_num
  have e6 : (16 : Nat) ^ 6 = 16777216 := by norm_num
  rw [e5, e4, e3, e2, e1] 
  rw [e6] at hn
  have hv : ((((n / 1048576 % 16 * 16 + n / 65536 % 16) * 16 + n / 4096 % 16) * 16 +
      n / 256 % 16) * 16 + n / 16 % 16) * 16 + n % 16 = n := by omega
  rw [hv]
  simp

theorem hexDecode_bytesToHex (bs : Bytes) (h : ∀ b ∈ bs, b < 16 ^ 6) :
    hexDecode (bytesToHex bs) = bs := by
  induction bs with
  | nil => rfl
  | cons b bs ih =>
    have hb : b < 16 ^ 6 := h b (by simp)
    have hrest : ∀ x ∈ bs, x < 16 ^ 6 := fun x hx => h x (by simp [hx])
    simp only [bytesToHex]
    rw [hexDecode_byteHex b hb, ih hrest]

theorem char_toNat_injective : Function.Injective Char.toNat := by
  intro a b h
  have h2 := congrArg Char.ofNat h
  rwa [Char.ofNat_toNat, Char.ofNat_toNat] at h2

theorem char_toNat_lt (c : Char) : c.toNat < 16 ^ 6 := by
  have e : (16 : Nat) ^ 6 = 16777216 := by norm_num
  rw [e]
  show c.val.toNat < 16777216
  rcases c.valid with h | ⟨h1, h2⟩ <;> omega

theorem bytesToStr_strBytes (s : Str) : bytesToStr (strBytes s) = s := by
  simp [bytesToStr, strBytes, List.map_map, Function.comp_def, Char.ofNat_toNat]

theorem strBytes_inj {s t : Str} (h : strBytes s = strBytes t) : s = t := by
  have h2 := congrArg bytesToStr h
  rwa [bytesToStr_strBytes, bytesToStr_strBytes] at h2

theorem strBytes_lt (s : Str) : ∀ b ∈ strBytes s, b < 16 ^ 6 := by
  intro b hb
  simp only [strBytes, List.mem_map] at hb
  obtain ⟨c, _, rfl⟩ := hb
  exact char_toNat_lt c

theorem pair2_inj {a b a2 b2 : Bytes} (h : pair2 a b = pair2 a2 b2) :
    a = a2 ∧ b = b2 := by
  simp only [pair2, List.cons.injEq] at h
  exact List.append_inj h.2 h.1

theorem sha256_inj {s t : Str} (h : sha256 s = sha256 t) : s = t := by
  simp only [sha256, List.cons.injEq] at h
  exact strBytes_inj h.2

theorem strBytes_length (s : Str) : (strBytes s).length = s.length := by
  simp [strBytes]

theorem sha256_length (s : Str) : (sha256 s).length = s.length + 1 := by
  simp [sha256, strBytes]

theorem mem_gcmTag (key iv ct : Bytes) (b : Nat) (hb : b ∈ gcmTag key iv ct) :
    b = key.length ∨ b ∈ key ∨ b = iv.length ∨ b ∈ iv ∨ b ∈ ct := by
  simp only [gcmTag, pair2, List.mem_cons, List.mem_append] at hb
  tauto

theorem mem_sha256 (s : Str) (b : Nat) (hb : b ∈ sha256 s) :
    b = s.length ∨ b ∈ strBytes s := by
  simp only [sha256, List.mem_cons] at hb
  tauto

theorem gcmTag_entries_lt (secret uid P : Str) (iv : Bytes)
    (hivB : ∀ b ∈ iv, b < 16 ^ 6) (hivL : iv.length < 16 ^ 6)
    (hkey : (secret ++ uid).length + 1 < 16 ^ 6) :
    ∀ b ∈ gcmTag (sha256 (secret ++ uid)) iv (strBytes P), b < 16 ^ 6 := by
  intro b hb
  rcases mem_gcmTag _ _ _ b hb with h | h | h | h | h
  · rw [h, sha256_length]; exact hkey
  · rcases mem_sha256 _ b h with h2 | h2
    · rw [h2]; omega
    · exact strBytes_lt _ b h2
  · rw [h]; exact hivL
  · exact hivB b h
  · exact strBytes_lt P b h

theorem decrypt_eq_of_split (secret uid x : Str) (p0 p1 p2 : Str) (rest : List Str)
    (h : splitOnChar ':' x = p0 :: p1 :: p2 :: rest) :
    decrypt secret x uid =
      (if gcmTag (sha256 (secret ++ uid)) (hexDecode p0) (hexDecode p2) = hexDecode p1
       then .ok (bytesToStr (hexDecode p2)) else .error .integrityError) := by
  unfold decrypt
  rw [h]

theorem split_encrypt (secret P uid : Str) (iv : Bytes) :
    splitOnChar ':' (encrypt secret P uid iv) =
      [bytesToHex iv, bytesToHex (gcmTag (sha256 (secret ++ uid)) iv (strBytes P)),
       bytesToHex (strBytes P)] := by
  unfold encrypt
  simp only [gcmCipherText, List.cons_append, List.append_assoc]
  rw [splitOnChar_append _ _ _ (bytesToHex_ne_colon _),
      splitOnChar_append _ _ _ (bytesToHex_ne_colon _),
      splitOnChar_nosep _ _ (bytesToHex_ne_colon _)]

theorem split_encrypt_junk (secret P uid : Str) (iv : Bytes) (junk : Str) :
    splitOnChar ':' (encrypt secret P uid iv ++ ':' :: junk) =
      bytesToHex iv :: bytesToHex (gcmTag (sha256 (secret ++ uid)) iv (strBytes P)) ::
      bytesToHex (strBytes P) :: splitOnChar ':' junk := by
  have h : encrypt secret P uid iv ++ ':' :: junk =
      bytesToHex iv ++ ':' :: (bytesToHex (gcmTag (sha256 (secret ++ uid)) iv (strBytes P))
        ++ ':' :: (bytesToHex (strBytes P) ++ ':' :: junk)) := by
    unfold encrypt
    simp [gcmCipherText, List.append_assoc]
  rw [h, splitOnChar_append _ _ _ (bytesToHex_ne_colon _),
      splitOnChar_append _ _ _ (bytesToHex_ne_colon _),
      splitOnChar_append _ _ _ (bytesToHex_ne_colon _)]

theorem readJson_result_ok (env : Env) (db : DB) (u c h fn : Str)
    (cache : Cache) (now : Nat) :
    ∃ v, (readJson env db u c h fn cache now).result = .ok v := by
  unfold readJson
  dsimp only
  split
  · split
    · exact ⟨_, rfl⟩
    · exact ⟨none, rfl⟩
  · exact ⟨_, rfl⟩

/-- C4: decrypting with the encrypting tenant's id returns the plaintext;
decrypting the same ciphertext with a different tenant id fails with the
integrity error, as does decrypting after any single serialized segment (IV,
authentication tag, or ciphertext) has been replaced by one decoding to a
different buffer.  The per-tenant key is the digest of the shared secret
concatenated with the tenant id, and the AEAD tag (ideal AEAD model) makes key
mismatch and tampering detectable.  The bound hypotheses keep every serialized
buffer entry within the six-hex-digit range of the model's codec. -/
theorem c4_tenant_isolation (secret P A B : Str) (iv : Bytes)
    (hAB : A ≠ B)
    (hivB : ∀ b ∈ iv, b < 16 ^ 6) (hivL : iv.length < 16 ^ 6)
    (hA : (secret ++ A).length + 1 < 16 ^ 6) :
    decrypt secret (encrypt secret P A iv) A = .ok P
    ∧ decrypt secret (encrypt secret P A iv) B = .error .integrityError
    ∧ (∀ q0 : Str, (∀ ch ∈ q0, ch ≠ ':') → hexDecode q0 ≠ iv →
        decrypt secret
          (q0 ++ ':' :: ((encParts secret P A iv).2.1 ++ ':' :: (encParts secret P A iv).2.2)) A
          = .error .integrityError)
    ∧ (∀ q1 : Str, (∀ ch ∈ q1, ch ≠ ':') →
        hexDecode q1 ≠ gcmTag (sha256 (secret ++ A)) iv (strBytes P) →
        decrypt secret
          ((encParts secret P A iv).1 ++ ':' :: (q1 ++ ':' :: (encParts secret P A iv).2.2)) A
          = .error .integrityError)
    ∧ (∀ q2 : Str, (∀ ch ∈ q2, ch ≠ ':') → hexDecode q2 ≠ strBytes P →
        decrypt secret
          ((encParts secret P A iv).1 ++ ':' :: ((encParts secret P A iv).2.1 ++ ':' :: q2)) A
          = .error .integrityError) := by
  have hkey := gcmTag_entries_lt secret A P iv hivB hivL hA
  have hdiv : hexDecode (bytesToHex iv) = iv := hexDecode_bytesToHex iv hivB
  have hdtag : hexDecode (bytesToHex (gcmTag (sha256 (secret ++ A)) iv (strBytes P)))
      = gcmTag (sha256 (secret ++ A)) iv (strBytes P) := hexDecode_bytesToHex _ hkey
  have hdct : hexDecode (bytesToHex (strBytes P)) = strBytes P :=
    hexDecode_bytesToHex _ (strBytes_lt P)
  have hp : encParts secret P A iv =
      (bytesToHex iv, bytesToHex (gcmTag (sha256 (secret ++ A)) iv (strBytes P)),
       bytesToHex (strBytes P)) := rfl
  refine ⟨?_, ?_, ?_, ?_, ?_⟩
  · rw [decrypt_eq_of_split secret A _ _ _ _ [] (split_encrypt secret P A iv),
        hdiv, hdtag, hdct, if_pos rfl, bytesToStr_strBytes]
  · rw [decrypt_eq_of_split secret B _ _ _ _ [] (split_encrypt secret P A iv),
        hdiv, hdtag, hdct, if_neg ?_]
    intro he
    have h1 := (pair2_inj he).1
    have h2 := sha256_inj h1
    exact hAB (List.append_cancel_left h2).symm
  · intro q0 hq0 hne
    rw [hp]
    have hs : splitOnChar ':'
        (q0 ++ ':' :: (bytesToHex (gcmTag (sha256 (secret ++ A)) iv (strBytes P))
          ++ ':' :: bytesToHex (strBytes P)))
        = q0 :: bytesToHex (gcmTag (sha256 (secret ++ A)) iv (strBytes P))
          :: [bytesToHex (strBytes P)] := by
      rw [splitOnChar_append _ _ _ hq0,
          splitOnChar_append _ _ _ (bytesToHex_ne_colon _),
          splitOnChar_nosep _ _ (bytesToHex_ne_colon _)]
    rw [decrypt_eq_of_split secret A _ _ _ _ [] hs, hdtag, hdct, if_neg ?_]
    intro he
    exact hne (pair2_inj (pair2_inj he).2).1
  · intro q1 hq1 hne
    rw [hp]
    have hs : splitOnChar ':'
        (bytesToHex iv ++ ':' :: (q1 ++ ':' :: bytesToHex (strBytes P)))
        = bytesToHex iv :: q1 :: [bytesToHex (strBytes P)] := by
      rw [splitOnChar_append _ _ _ (bytesToHex_ne_colon _),
          splitOnChar_append _ _ _ hq1,
          splitOnChar_nosep _ _ (bytesToHex_ne_colon _)]
    rw [decrypt_eq_of_split secret A _ _ _ _ [] hs, hdiv, hdct, if_neg ?_]
    intro he
    exact hne he.symm
  · intro q2 hq2 hne
    rw [hp]
    have hs : splitOnChar ':'
        (bytesToHex iv ++ ':' :: (bytesToHex (gcmTag (sha256 (secret ++ A)) iv (strBytes P))
          ++ ':' :: q2))
        = bytesToHex iv :: bytesToHex (gcmTag (sha256 (secret ++ A)) iv (strBytes P)) :: [q2] := by
      rw [splitOnChar_append _ _ _ (bytesToHex_ne_colon _),
          splitOnChar_append _ _ _ (bytesToHex_ne_colon _),
          splitOnChar_nosep _ _ hq2]
    rw [decrypt_eq_of_split secret A _ _ _ _ [] hs, hdiv, hdtag, if_neg ?_]
    intro he
    exact hne (pair2_inj (pair2_inj he).2).2

/-- C4 witness: the tenant-isolation theorem applied to concrete secret,
plaintext, tenants a and b, IV, and a concrete tampered IV segment. -/
theorem c4_tenant_isolation_witness :
    decrypt wSecret (encrypt wSecret wP wA demoIv) wA = .ok wP
    ∧ decrypt wSecret (encrypt wSecret wP wA demoIv) wB = .error .integrityError
    ∧ decrypt wSecret
        ([] ++ ':' :: ((encParts wSecret wP wA demoIv).2.1
          ++ ':' :: (encParts wSecret wP wA demoIv).2.2)) wA
        = .error .integrityError := by
  obtain ⟨h1, h2, h3, _, _⟩ :=
    c4_tenant_isolation wSecret wP wA wB demoIv (by decide) (by decide) (by decide) (by decide)
  exact ⟨h1, h2, h3 [] (by intro ch hch; cases hch) (by decide)⟩

/-- C8 counterexample: a well-formed ciphertext with a fourth colon-delimited
field appended has a colon-split form of four fields, yet `decrypt` accepts it
and returns the plaintext — the wrong field count is not rejected. -/
theorem c8_counterexample :
    (splitOnChar ':' c8input).length = 4
    ∧ decrypt wSecret c8input wA = .ok wP := by
  constructor
  · decide
  · rfl

/-- C8 amended: for inputs whose colon-split form has fewer than three fields,
`decrypt` rejects the malformed serialization with an error rather than
crashing; inputs with more than three fields are not rejected — the first
three fields are used and the remainder is ignored, so a valid ciphertext with
a colon and arbitrary trailing text appended still decrypts to the original
plaintext. -/
theorem c8_field_count_handling :
    (∀ secret uid s : Str, (splitOnChar ':' s).length < 3 →
       decrypt secret s uid = .error .typeError)
    ∧ (∀ secret P A junk : Str, ∀ iv : Bytes,
        (∀ b ∈ iv, b < 16 ^ 6) → iv.length < 16 ^ 6 →
        (secret ++ A).length + 1 < 16 ^ 6 →
        decrypt secret (encrypt secret P A iv ++ ':' :: junk) A = .ok P) := by
  constructor
  · intro secret uid s h
    unfold decrypt
    cases hs : splitOnChar ':' s with
    | nil => rfl
    | cons p0 rest =>
      cases rest with
      | nil => rfl
      | cons p1 rest2 =>
        cases rest2 with
        | nil => rfl
        | cons p2 rest3 =>
          rw [hs] at h
          simp at h
          omega
  · intro secret P A junk iv hivB hivL hA
    rw [decrypt_eq_of_split secret A _ _ _ _ _ (split_encrypt_junk secret P A iv junk),
        hexDecode_bytesToHex iv hivB,
        hexDecode_bytesToHex _ (gcmTag_entries_lt secret A P iv hivB hivL hA),
        hexDecode_bytesToHex _ (strBytes_lt P), if_pos rfl, bytesToStr_strBytes]

/-- C8 witness: the amended field-count theorem applied to a concrete
one-field input and to a concrete four-field input. -/
theorem c8_field_count_handling_witness :
    decrypt wSecret (("ab").data) wA = .error .typeError
    ∧ decrypt wSecret (encrypt wSecret wP wA demoIv ++ ':' :: ("zz").data) wA = .ok wP := by
  obtain ⟨h1, h2⟩ := c8_field_count_handling
  exact ⟨h1 wSecret wA (("ab").data) (by decide),
         h2 wSecret wP wA (("zz").data) demoIv (by decide) (by decide) (by decide)⟩

/-- C1: the write/read round trip fails in the code.  For the concrete tenant
(uidA, cidA), address (hashA, client_info.json) and value `true`, `writeJson`
rejects with the ReferenceError raised by evaluating the unbound identifier
`prisma` — before any record is upserted or the cache refreshed — and the
subsequent `readJson` on the unchanged state returns `undefined`, which is not
the written value. -/
theorem c1_roundtrip_fails :
    writeJson demoEnv uidA cidA hashA clientInfoJson (Json.bool true) demoIv []
      = (.error .referenceError, [])
    ∧ (readJson demoEnv emptyDB uidA cidA hashA clientInfoJson [] 0).result = .ok none
    ∧ (.ok (some (Json.bool true)) : Except Err (Option Json)) ≠ .ok none := by
  refine ⟨rfl, rfl, by simp⟩

/-- C2: consequences of the unbound `prisma` identifier.  `writeJson` always
rejects with the ReferenceError and leaves the cache unchanged, for every
filename; for every filename other than tokens.json, an uncached `readJson`
settles with `undefined` via its fail-soft catch, with the record store never
consulted; and `delete` completes without error while leaving the record store
untouched, because its catch swallows the failure. -/
theorem c2_unbound_prisma_consequences :
    (∀ env u c h fn data iv cache,
       writeJson env u c h fn data iv cache = (.error .referenceError, cache))
    ∧ (∀ env db u c h fn cache now,
       fn ≠ tokensJson →
       (getFromCache cache now (getCacheKey u c h fn)).1 = Json.null →
       (readJson env db u c h fn cache now).result = .ok none
       ∧ (readJson env db u c h fn cache now).dbTouched = false)
    ∧ (∀ u c h fn db cache,
       (deleteOp u c h fn db cache).1 = .ok ()
       ∧ (deleteOp u c h fn db cache).2.1 = db) := by
  refine ⟨?_, ?_, ?_⟩
  · intro env u c h fn data iv cache
    by_cases h1 : fn = tokensJson
    · simp [writeJson, h1]
    · by_cases h2 : fn = clientInfoJson <;> simp [writeJson, h1, h2]
  · intro env db u c h fn cache now hfn hmiss
    have hnull : ((getFromCache cache now (getCacheKey u c h fn)).1).isNull = true := by
      rw [hmiss]; rfl
    have hcl : ∀ r, readJsonTry env db u c h fn r now (getCacheKey u c h fn)
        = (.error .referenceError, r, false) := by
      intro r
      unfold readJsonTry
      rw [if_neg hfn]
      by_cases h2 : fn = clientInfoJson
      · rw [if_pos h2]
      · rw [if_neg h2]
    refine ⟨?_, ?_⟩ <;> simp [readJson, hnull, hcl]
  · intro u c h fn db cache
    by_cases h1 : fn = tokensJson
    · refine ⟨?_, ?_⟩ <;> simp [deleteOp, h1, Err.code]
    · by_cases h2 : fn = clientInfoJson
      · refine ⟨?_, ?_⟩ <;> simp [deleteOp, h1, h2, Err.code]
      · refine ⟨?_, ?_⟩ <;> simp [deleteOp, h1, h2, Err.code]

/-- C2 witness: the consequences theorem applied at a concrete tenant, address
and generic filename. -/
theorem c2_unbound_prisma_consequences_witness :
    writeJson demoEnv uidA cidA hashA otherFile Json.null demoIv []
      = (.error .referenceError, [])
    ∧ (readJson demoEnv emptyDB uidA cidA hashA otherFile [] 0).result = .ok none
    ∧ (readJson demoEnv emptyDB uidA cidA hashA otherFile [] 0).dbTouched = false
    ∧ (deleteOp uidA cidA hashA otherFile emptyDB []).1 = .ok () := by
  obtain ⟨hw, hr, hd⟩ := c2_unbound_prisma_consequences
  exact ⟨hw demoEnv uidA cidA hashA otherFile Json.null demoIv [],
         (hr demoEnv emptyDB uidA cidA hashA otherFile [] 0 (by decide) rfl).1,
         (hr demoEnv emptyDB uidA cidA hashA otherFile [] 0 (by decide) rfl).2,
         (hd uidA cidA hashA otherFile emptyDB []).1⟩

/-- C3: delete does not behave as the claim states.  With a client-info record
present, `delete` reports success, the record store is left untouched (the
record is still there afterwards), and the underlying failure — the
ReferenceError from the unbound `prisma`, which is not a "record does not
exist" condition — is swallowed by the catch instead of propagating. -/
theorem c3_delete_noop_success :
    (deleteOp uidA cidA hashA clientInfoJson demoClientDB []).1 = .ok ()
    ∧ (deleteOp uidA cidA hashA clientInfoJson demoClientDB []).2.1 = demoClientDB
    ∧ demoClientDB.findClientInfo hashA = some ⟨hashA, ("cd").data⟩
    ∧ Err.code .referenceError ≠ some p2025 := by
  refine ⟨rfl, rfl, rfl, by simp [Err.code]⟩

/-- C5: reads are fail-soft.  `readJson` always settles successfully — every
fetch, decryption or parsing error is converted to `undefined` — and the
exported `readJsonFile` on the database path likewise always settles
successfully (schema-validation rejections included).  Moreover a record store
with no record and one holding a corrupted record are indistinguishable at the
interface: both reads return `undefined`. -/
theorem c5_reads_fail_soft :
    (∀ env db u c h fn cache now,
       ∃ v, (readJson env db u c h fn cache now).result = .ok v)
    ∧ (∀ env fb cfg inst db cache now h fn schema,
       (getStorage cfg inst).1 ≠ none →
       ∃ v, (readJsonFile env fb cfg inst db cache now h fn schema).1 = .ok v)
    ∧ (readJson demoEnv emptyDB uidA cidA hashA tokensJson [] 0).result = .ok none
    ∧ (readJson demoEnv demoCorruptDB uidA cidA hashA tokensJson [] 0).result = .ok none := by
  refine ⟨readJson_result_ok, ?_, rfl, rfl⟩
  intro env fb cfg inst db cache now h fn schema hsome
  unfold readJsonFile
  cases hg : (getStorage cfg inst).1 with
  | none => exact absurd hg hsome
  | some s =>
    dsimp only
    split
    · exact ⟨_, rfl⟩
    · exact ⟨none, rfl⟩

/-- C5 witness: the fail-soft theorem's database-path conjunct applied at a
concrete resolved configuration. -/
theorem c5_reads_fail_soft_witness :
    ∃ v, (readJsonFile demoEnv demoFallback cfgOn (some instA) emptyDB [] 0
            hashA tokensJson demoSchema).1 = .ok v := by
  exact c5_reads_fail_soft.2.1 demoEnv demoFallback cfgOn (some instA) emptyDB [] 0
    hashA tokensJson demoSchema (by decide)

theorem readJsonTry_tokens_dbTouched (env : Env) (db : DB) (u c h : Str)
    (cache : Cache) (now : Nat) (ck : Str) (hurl : env.databaseUrl ≠ none) :
    (readJsonTry env db u c h tokensJson cache now ck).2.2 = true := by
  unfold readJsonTry
  rw [if_pos rfl]
  cases hu : env.databaseUrl with
  | none => exact absurd hu hurl
  | some url =>
    simp only [getPrismaClient, hu]
    cases db.findToken u c h with
    | none => rfl
    | some r =>
      dsimp only
      cases decrypt env.secret r.tokenData u with
      | error e => rfl
      | ok d =>
        dsimp only
        cases env.jsonParse d with
        | error e => rfl
        | ok data => rfl

/-- C6 counterexample: a JSON `null` cached 1 ms earlier — well within the
5000 ms TTL — is not served from the cache: the cached `null` collides with
the miss sentinel of `getFromCache`, so `readJson` performs a record-store
fetch (the `dbTouched` flag) and returns `undefined` rather than the cached
value, refuting the fresh-hit half of the claim for this key. -/
theorem c6_counterexample :
    cacheGet c6cache (getCacheKey uidA cidA hashA tokensJson) = some ⟨Json.null, 0⟩
    ∧ (1 : Nat) - 0 < CACHE_TTL
    ∧ (readJson demoEnv emptyDB uidA cidA hashA tokensJson c6cache 1).dbTouched = true
    ∧ (readJson demoEnv emptyDB uidA cidA hashA tokensJson c6cache 1).result = .ok none := by
  refine ⟨rfl, by norm_num [CACHE_TTL], rfl, rfl⟩

/-- C6 amended: with a cache entry for the key cached at t0, a lookup at
t0+d with d < 5000 returns the cached value and leaves the cache unchanged,
and `readJson` serves a fresh cached value with no record-store interaction
provided the value is not JSON `null` (a cached `null` collides with the miss
sentinel and always falls through to a backend fetch — see the
counterexample); at d ≥ 5000 the expired entry is deleted on access, the
lookup misses, and — for the tokens resource with a configured database URL —
`readJson` consults the record store afresh.  The TTL is the fixed constant
5000 ms. -/
theorem c6_cache_ttl (cache : Cache) (key : Str) (e : CacheEntry) (t0 d : Nat)
    (hget : cacheGet cache key = some e) (hts : e.timestamp = t0) :
    CACHE_TTL = 5000
    ∧ (d < 5000 → getFromCache cache (t0 + d) key = (e.data, cache))
    ∧ (5000 ≤ d → getFromCache cache (t0 + d) key = (Json.null, cacheDelete cache key))
    ∧ (∀ env db u c h fn, key = getCacheKey u c h fn → d < 5000 → e.data.isNull = false →
        readJson env db u c h fn cache (t0 + d) = ⟨.ok (some e.data), cache, false⟩)
    ∧ (∀ env db u c h, key = getCacheKey u c h tokensJson → 5000 ≤ d →
        env.databaseUrl ≠ none →
        (readJson env db u c h tokensJson cache (t0 + d)).dbTouched = true) := by
  have hfresh : d < 5000 → getFromCache cache (t0 + d) key = (e.data, cache) := by
    intro hd
    unfold getFromCache cacheGet
    unfold cacheGet at hget
    rw [hget]
    dsimp only
    have hc : t0 + d - e.timestamp < CACHE_TTL := by
      rw [hts]; unfold CACHE_TTL; omega
    rw [if_pos hc]
  have hstale : 5000 ≤ d →
      getFromCache cache (t0 + d) key = (Json.null, cacheDelete cache key) := by
    intro hd
    unfold getFromCache cacheGet
    unfold cacheGet at hget
    rw [hget]
    dsimp only
    have hc : ¬ t0 + d - e.timestamp < CACHE_TTL := by
      rw [hts]; unfold CACHE_TTL; omega
    rw [if_neg hc]
  refine ⟨rfl, hfresh, hstale, ?_, ?_⟩
  · intro env db u c h fn hk hd hnn
    subst hk
    have hl := hfresh hd
    simp [readJson, hl, hnn]
  · intro env db u c h hk hd hurl
    subst hk
    have hl := hstale hd
    have ht := readJsonTry_tokens_dbTouched env db u c h
      (cacheDelete cache (getCacheKey u c h tokensJson)) (t0 + d)
      (getCacheKey u c h tokensJson) hurl
    simp [readJson, hl]
    cases hres : (readJsonTry env db u c h tokensJson
        (cacheDelete cache (getCacheKey u c h tokensJson)) (t0 + d)
        (getCacheKey u c h tokensJson)).1 with
    | ok v => dsimp only; exact ht
    | error ex => dsimp only; exact ht

/-- C6 witness: the amended TTL theorem applied to a concrete cache holding a
`true` value cached at time 10, at deltas 1 (fresh) and 5000 (expired). -/
theorem c6_cache_ttl_witness :
    getFromCache c6cacheW (10 + 1) (getCacheKey uidA cidA hashA tokensJson)
      = (Json.bool true, c6cacheW)
    ∧ getFromCache c6cacheW (10 + 5000) (getCacheKey uidA cidA hashA tokensJson)
      = (Json.null, cacheDelete c6cacheW (getCacheKey uidA cidA hashA tokensJson))
    ∧ readJson demoEnv emptyDB uidA cidA hashA tokensJson c6cacheW (10 + 1)
      = ⟨.ok (some (Json.bool true)), c6cacheW, false⟩
    ∧ (readJson demoEnv emptyDB uidA cidA hashA tokensJson c6cacheW (10 + 5000)).dbTouched
      = true := by
  obtain ⟨_, hf, _, hj, _⟩ := c6_cache_ttl c6cacheW (getCacheKey uidA cidA hashA tokensJson)
    ⟨Json.bool true, 10⟩ 10 1 rfl rfl
  obtain ⟨_, _, hs, _, ht⟩ := c6_cache_ttl c6cacheW (getCacheKey uidA cidA hashA tokensJson)
    ⟨Json.bool true, 10⟩ 10 5000 rfl rfl
  exact ⟨hf (by norm_num), hs (by norm_num),
         hj demoEnv emptyDB uidA cidA hashA tokensJson rfl (by norm_num) rfl,
         ht demoEnv emptyDB uidA cidA hashA rfl (by norm_num) (by decide)⟩

/-- C7: the backend selector returns no storage instance unless the mode flag
selects the database backend and both the tenant id and the connection id are
truthy; a memoized instance is returned as-is and never reconstructed (and a
second call returns exactly the first call's result and state); and each of
the four exported entry points delegates to the same-named fallback function
exactly when the selector yields no instance. -/
theorem c7_selector_memoization_delegation :
    (∀ cfg inst,
       (!dbMode cfg || !envTruthy cfg.mcpUserId || !envTruthy cfg.mcpConnectionId) = true →
       getStorage cfg inst = (none, inst))
    ∧ (∀ cfg s, (getStorage cfg (some s)).2 = some s
        ∧ ((getStorage cfg (some s)).1 = none ∨ (getStorage cfg (some s)).1 = some s))
    ∧ (∀ cfg, getStorage cfg (getStorage cfg none).2 = getStorage cfg none)
    ∧ (∀ env fb cfg inst db cache now h fn schema,
        ((getStorage cfg inst).1 = none →
          readJsonFile env fb cfg inst db cache now h fn schema
            = (fb.readJsonFile h fn schema, cache, Route.fallback))
        ∧ ((getStorage cfg inst).1 ≠ none →
          (readJsonFile env fb cfg inst db cache now h fn schema).2.2 = Route.database))
    ∧ (∀ env fb cfg inst cache h fn data iv,
        ((getStorage cfg inst).1 = none →
          writeJsonFile env fb cfg inst cache h fn data iv
            = (fb.writeJsonFile h fn data, cache, Route.fallback))
        ∧ ((getStorage cfg inst).1 ≠ none →
          (writeJsonFile env fb cfg inst cache h fn data iv).2.2 = Route.database))
    ∧ (∀ env fb cfg inst db cache now h fn msg,
        ((getStorage cfg inst).1 = none →
          readTextFile env fb cfg inst db cache now h fn msg
            = (fb.readTextFile h fn msg, cache, Route.fallback))
        ∧ ((getStorage cfg inst).1 ≠ none →
          (readTextFile env fb cfg inst db cache now h fn msg).2.2 = Route.database))
    ∧ (∀ env fb cfg inst cache h fn text iv,
        ((getStorage cfg inst).1 = none →
          writeTextFile env fb cfg inst cache h fn text iv
            = (fb.writeTextFile h fn text, cache, Route.fallback))
        ∧ ((getStorage cfg inst).1 ≠ none →
          (writeTextFile env fb cfg inst cache h fn text iv).2.2 = Route.database)) := by
  have hsel : ∀ cfg inst,
      (!dbMode cfg || !envTruthy cfg.mcpUserId || !envTruthy cfg.mcpConnectionId) = true →
      getStorage cfg inst = (none, inst) := by
    intro cfg inst hc
    unfold getStorage
    rw [if_pos hc]
  refine ⟨hsel, ?_, ?_, ?_, ?_, ?_, ?_⟩
  · intro cfg s
    cases hc : (!dbMode cfg || !envTruthy cfg.mcpUserId || !envTruthy cfg.mcpConnectionId) with
    | true =>
      rw [hsel cfg (some s) hc]
      exact ⟨rfl, Or.inl rfl⟩
    | false =>
      unfold getStorage
      rw [if_neg (by simp [hc])]
      exact ⟨rfl, Or.inr rfl⟩
  · intro cfg
    cases hc : (!dbMode cfg || !envTruthy cfg.mcpUserId || !envTruthy cfg.mcpConnectionId) with
    | true =>
      rw [hsel cfg none hc]
      dsimp only
      exact hsel cfg none hc
    | false =>
      have h1 : getStorage cfg none =
          (some ⟨(cfg.mcpUserId).getD [], (cfg.mcpConnectionId).getD []⟩,
           some ⟨(cfg.mcpUserId).getD [], (cfg.mcpConnectionId).getD []⟩) := by
        unfold getStorage
        rw [if_neg (by simp [hc])]
      rw [h1]
      dsimp only
      unfold getStorage
      rw [if_neg (by simp [hc])]
  · intro env fb cfg inst db cache now h fn schema
    constructor
    · intro hg
      unfold readJsonFile
      rw [hg]
    · intro hg
      unfold readJsonFile
      cases hg2 : (getStorage cfg inst).1 with
      | none => exact absurd hg2 hg
      | some s => rfl
  · intro env fb cfg inst cache h fn data iv
    constructor
    · intro hg
      unfold writeJsonFile
      rw [hg]
    · intro hg
      unfold writeJsonFile
      cases hg2 : (getStorage cfg inst).1 with
      | none => exact absurd hg2 hg
      | some s => rfl
  · intro env fb cfg inst db cache now h fn msg
    constructor
    · intro hg
      unfold readTextFile
      rw [hg]
    · intro hg
      unfold readTextFile
      cases hg2 : (getStorage cfg inst).1 with
      | none => exact absurd hg2 hg
      | some s =>
        dsimp only
        cases (readText env db s.userId s.connectionId h fn cache now).1 with
        | ok t => rfl
        | error e => rfl
  · intro env fb cfg inst cache h fn text iv
    constructor
    · intro hg
      unfold writeTextFile
      rw [hg]
    · intro hg
      unfold writeTextFile
      cases hg2 : (getStorage cfg inst).1 with
      | none => exact absurd hg2 hg
      | some s => rfl

/-- C7 witness: the selector theorem applied at a concrete unset configuration
(fallback route, equal to the fallback module's own function) and at a
concrete complete configuration (memoized instance, database route). -/
theorem c7_selector_memoization_delegation_witness :
    getStorage cfgOff none = (none, none)
    ∧ getStorage cfgOn (getStorage cfgOn none).2 = getStorage cfgOn none
    ∧ readJsonFile demoEnv demoFallback cfgOff none emptyDB [] 0 hashA tokensJson demoSchema
        = (demoFallback.readJsonFile hashA tokensJson demoSchema, [], Route.fallback)
    ∧ (writeJsonFile demoEnv demoFallback cfgOn (some instA) [] hashA tokensJson
        Json.null demoIv).2.2 = Route.database := by
  obtain ⟨h1, _, h3, h4, h5, _, _⟩ := c7_selector_memoization_delegation
  exact ⟨h1 cfgOff none (by decide), h3 cfgOn,
         (h4 demoEnv demoFallback cfgOff none emptyDB [] 0 hashA tokensJson demoSchema).1
           (by decide),
         (h5 demoEnv demoFallback cfgOn (some instA) [] hashA tokensJson Json.null demoIv).2
           (by decide)⟩

set_option maxRecDepth 8000 in
/-- C9 counterexample: a stored token record that decrypts and parses to the
empty JSON string — a present value that is a string — still makes `readText`
throw the default error, refuting the "if and only if the stored value is
absent or not a string" claim. -/
theorem c9_counterexample :
    (readJson env9 demoDB9 uidA cidA hashA tokensJson [] 0).result
      = .ok (some (Json.str []))
    ∧ (readText env9 demoDB9 uidA cidA hashA tokensJson [] 0).1
      = .error (.thrown (errorReading tokensJson)) := by
  exact ⟨rfl, rfl⟩

/-- C9 amended: `readText` throws the default descriptive error exactly when
the value the inner `readJson` settles with is absent, not a string, or the
empty string (a present empty string is still rejected, because the source
tests JavaScript truthiness before the type); otherwise it returns the stored
string unchanged.  On the database path the exported `readTextFile` passes
successful reads through unchanged and maps any failure to the caller's
message when a truthy one is given, falling back to the default. -/
theorem c9_read_text_condition (env : Env) (db : DB) (u c h fn : Str)
    (cache : Cache) (now : Nat) :
    (∀ s, (readJson env db u c h fn cache now).result = .ok (some (Json.str s)) → s ≠ [] →
       (readText env db u c h fn cache now).1 = .ok s)
    ∧ ((readText env db u c h fn cache now).1 = .error (.thrown (errorReading fn))
        ↔ ¬ ∃ s, (readJson env db u c h fn cache now).result = .ok (some (Json.str s)) ∧ s ≠ [])
    ∧ (∀ fb cfg inst msg s2, (getStorage cfg inst).1 = some s2 →
        (∀ t, (readText env db s2.userId s2.connectionId h fn cache now).1 = .ok t →
           (readTextFile env fb cfg inst db cache now h fn msg).1 = .ok t)
        ∧ (∀ e2, (readText env db s2.userId s2.connectionId h fn cache now).1 = .error e2 →
           (readTextFile env fb cfg inst db cache now h fn msg).1
             = .error (.thrown (jsOrElse msg (errorReading fn))))) := by
  have hrt : ∀ w, (readJson env db u c h fn cache now).result = .ok w →
      (readText env db u c h fn cache now).1 =
      (match w with
       | some (Json.str s) =>
         if s.isEmpty then .error (.thrown (errorReading fn)) else .ok s
       | _ => .error (.thrown (errorReading fn))) := by
    intro w hw
    unfold readText
    dsimp only
    rw [hw]
    cases w with
    | none => rfl
    | some j =>
      cases j with
      | null => rfl
      | bool b => rfl
      | num n => rfl
      | str s => dsimp only; split <;> rfl
      | arr xs => rfl
      | obj kvs => rfl
  obtain ⟨v, hv⟩ := readJson_result_ok env db u c h fn cache now
  refine ⟨?_, ?_, ?_⟩
  · intro s hs hne
    cases s with
    | nil => exact absurd rfl hne
    | cons a as =>
      rw [hrt (some (Json.str (a :: as))) hs]
      rfl
  · rw [hrt v hv]
    cases v with
    | none => simp [hv]
    | some w =>
      cases w with
      | null => simp [hv]
      | bool b => simp [hv]
      | num n => simp [hv]
      | str s =>
        cases s with
        | nil => simp [hv]
        | cons a as => simp [hv]
      | arr xs => simp [hv]
      | obj kvs => simp [hv]
  · intro fb cfg inst msg s2 hg
    constructor
    · intro t htok
      unfold readTextFile
      rw [hg]
      dsimp only
      rw [htok]
    · intro e2 herr
      unfold readTextFile
      rw [hg]
      dsimp only
      rw [herr]

set_option maxRecDepth 8000 in
/-- C9 witness: the amended readText theorem applied at the concrete state of
the counterexample: the read throws via the iff direction, and the exported
`readTextFile` replaces the failure with the caller's custom message. -/
theorem c9_read_text_condition_witness :
    (readText env9 demoDB9 uidA cidA hashA tokensJson [] 0).1
      = .error (.thrown (errorReading tokensJson))
    ∧ (readTextFile env9 demoFallback cfgOn (some instA) demoDB9 [] 0 hashA tokensJson
        (some (("custom").data))).1 = .error (.thrown (("custom").data)) := by
  obtain ⟨h1, h2, h3⟩ := c9_read_text_condition env9 demoDB9 uidA cidA hashA tokensJson [] 0
  have hnot : ¬ ∃ s, (readJson env9 demoDB9 uidA cidA hashA tokensJson [] 0).result
      = .ok (some (Json.str s)) ∧ s ≠ [] := by
    rintro ⟨s, hs, hne⟩
    have h0 : (readJson env9 demoDB9 uidA cidA hashA tokensJson [] 0).result
        = .ok (some (Json.str [])) := rfl
    rw [h0] at hs
    simp at hs
    exact hne hs
  have herr := h2.mpr hnot
  refine ⟨herr, ?_⟩
  have hmap := (h3 demoFallback cfgOn (some instA) (some (("custom").data)) instA rfl).2
    (.thrown (errorReading tokensJson)) herr
  exact hmap

/-- C10: falsy fetched values are read as absent.  The exported `readJsonFile`
tests the fetched value for JavaScript truthiness before invoking the
validator, so a successfully fetched `null`, `false`, `0` or empty string is
returned as `undefined`, indistinguishable from a missing record at the public
interface; the first conjunct pins the truthiness test to exactly those four
JSON values. -/
theorem c10_falsy_read_as_absent :
    (∀ v, jsFalsy (some v) = true ↔
       v = Json.null ∨ v = Json.bool false ∨ v = Json.num 0 ∨ v = Json.str [])
    ∧ (∀ env fb cfg inst db cache now h fn schema s v,
        (getStorage cfg inst).1 = some s →
        (readJson env db s.userId s.connectionId h fn cache now).result = .ok (some v) →
        jsFalsy (some v) = true →
        (readJsonFile env fb cfg inst db cache now h fn schema).1 = .ok none) := by
  constructor
  · intro v
    cases v with
    | null => simp [jsFalsy]
    | bool b => cases b <;> simp [jsFalsy]
    | num n => simp [jsFalsy]
    | str s => cases s <;> simp [jsFalsy]
    | arr xs => simp [jsFalsy]
    | obj kvs => simp [jsFalsy]
  · intro env fb cfg inst db cache now h fn schema s v hg hv hf
    unfold readJsonFile
    rw [hg]
    dsimp only
    rw [hv]
    dsimp only
    rw [hf]
    simp

/-- C10 witness: a fetched `false` (served from a fresh cache entry on the
database path) is returned as `undefined` by the exported `readJsonFile`. -/
theorem c10_falsy_read_as_absent_witness :
    (readJsonFile demoEnv demoFallback cfgOn (some instA) emptyDB c10cache 0
        hashA otherFile demoSchema).1 = .ok none := by
  exact c10_falsy_read_as_absent.2 demoEnv demoFallback cfgOn (some instA) emptyDB c10cache 0
    hashA otherFile demoSchema instA (Json.bool false) rfl rfl rfl

end McpStorage
